import Mathlib

/-
  Verification development for the canvasai streaming multi-provider
  inference gateway: shallow embedding of the retrieval engine, the retry
  wrapper, the error translator, the history converters and the chat-engine
  session controller (src/hooks/useChatEngine.ts, src/services/geminiService.ts),
  together with theorems settling the spec claims.

  Text is modelled as `List Char` (the character sequence of a JS string);
  optional JS fields are modelled as `Option`; JS loops are modelled by
  structural recursion (with an explicit fuel counter, proved sufficient in a
  comment, where the source loop advances a cursor).
-/

namespace CanvasAI

/-- The character list of a string literal (JS strings are char sequences). -/
def str (s : String) : List Char := s.data

/-- ECMAScript WhiteSpace and LineTerminator characters (the class matched by
the regex \s and trimmed by String.prototype.trim). -/
def isJsSpace (c : Char) : Bool :=
  c = ' ' || c = '\t' || c = '\n' || c = '\r' || c = '\x0b' || c = '\x0c' ||
  c = ' ' || c = ' ' ||
  (0x2000 ≤ c.toNat && c.toNat ≤ 0x200A) ||
  c = ' ' || c = ' ' || c = ' ' || c = ' ' ||
  c = '　' || c = '﻿'

/-- Models String.prototype.toLowerCase (ASCII range; inputs in the claims are
ASCII or CJK, and CJK characters have no case). -/
def lower (l : List Char) : List Char := l.map Char.toLower

/-- Models String.prototype.trim. -/
def jsTrim (l : List Char) : List Char :=
  ((l.dropWhile isJsSpace).reverse.dropWhile isJsSpace).reverse

/-- A character of the regex class \w, i.e. [A-Za-z0-9_]. -/
def isWordChar (c : Char) : Bool :=
  ('a' ≤ c && c ≤ 'z') || ('A' ≤ c && c ≤ 'Z') || ('0' ≤ c && c ≤ '9') || c = '_'

/-- A character of the CJK range 一-龥 kept by the keyword regex. -/
def isCjk (c : Char) : Bool := 0x4e00 ≤ c.toNat && c.toNat ≤ 0x9fa5

/-- Splits on runs of whitespace, returning the maximal non-whitespace runs.
Models s.split(:regex of one or more \s:); the leading empty token that JS
produces for a string starting with whitespace is omitted here, which is
absorbed by the later length>1 filter. -/
def wsSplitAux : List Char → List Char → List (List Char)
  | [], acc => if acc = [] then [] else [acc.reverse]
  | c :: rest, acc =>
    if isJsSpace c then
      (if acc = [] then wsSplitAux rest [] else acc.reverse :: wsSplitAux rest [])
    else wsSplitAux rest (c :: acc)

def wsSplit (l : List Char) : List (List Char) := wsSplitAux l []

/-- Models String.prototype.split(sep) for a one-character separator. -/
def splitOnCharAux (c : Char) : List Char → List Char → List (List Char)
  | [], acc => [acc.reverse]
  | x :: rest, acc =>
    if x = c then acc.reverse :: splitOnCharAux c rest []
    else splitOnCharAux c rest (x :: acc)

def splitOnChar (c : Char) (l : List Char) : List (List Char) := splitOnCharAux c l []

/-- needle is a prefix of hay (character lists). -/
def isPrefixList : List Char → List Char → Bool
  | [], _ => true
  | _ :: _, [] => false
  | a :: as, b :: bs => a = b && isPrefixList as bs

/-- Models String.prototype.includes: needle occurs contiguously in hay. -/
def containsList (needle : List Char) : List Char → Bool
  | [] => isPrefixList needle []
  | c :: rest => isPrefixList needle (c :: rest) || containsList needle rest

/-- JS arr.slice(-n): the last n elements, except that slice(-0) = slice(0)
returns the whole array. -/
def jsSliceLast (l : List α) (n : Nat) : List α :=
  if n = 0 then l else l.drop (l.length - n)

/- ===================== data model (src/unnamed/part_000, types.ts) ===================== -/

inductive MessageRole where
  | USER
  | MODEL
  | SYSTEM
deriving DecidableEq, Repr

inductive ContentType where
  | TEXT
  | IMAGE
  | VIDEO
  | AUDIO
deriving DecidableEq, Repr

structure Attachment where
  type : ContentType
  mimeType : List Char
  data : List Char
  preview : Option (List Char) := none
deriving DecidableEq, Repr

/-- Grounding metadata is free-form (any); modelled as an uninterpreted payload. -/
abbrev GroundingMetadata : Type := List Char

structure Message where
  id : List Char
  role : MessageRole
  content : List Char
  attachments : Option (List Attachment) := none
  timestamp : Nat
  isError : Option Bool := none
  isBookmarked : Option Bool := none
  isHidden : Option Bool := none
  modelName : Option (List Char) := none
  modelId : Option (List Char) := none
  groundingMetadata : Option GroundingMetadata := none
deriving DecidableEq

structure KnowledgeFile where
  id : List Char
  name : List Char
  content : List Char
  size : Nat
  timestamp : Nat
  isActive : Bool
deriving DecidableEq

/-- GenerationConfig; temperature and topP are carried opaquely (they are
floats never branched on by the embedded code). -/
structure GenerationConfig where
  temperature : Int
  topP : Int
  maxOutputTokens : Nat
  historyLimit : Nat
  enableSearch : Option Bool := none
deriving DecidableEq

/- ===================== retrieval engine (useChatEngine.ts lines 15-80) ===================== -/

/-- Keyword extraction of retrieveRelevantContext: lowercase, strip every
character that is not \w, \s or CJK, split on whitespace, keep tokens longer
than one character. -/
def keywordsOf (query : List Char) : List (List Char) :=
  let cleaned := (lower query).filter (fun c => isWordChar c || isJsSpace c || isCjk c)
  (wsSplit cleaned).filter (fun k => k.length > 1)

/-- One step of the chunking while-loop: slice(start, min(start+800, len)) then
start += 700, expressed on the remaining suffix of the text: take 800 as the
chunk, drop 700 to advance.  fuel bounds the iteration count; each iteration
shortens a nonempty remainder by min 700 of its length, hence at least 1, so
fuel = length + 1 is sufficient. -/
def chunkAux : Nat → List Char → List (List Char)
  | 0, _ => []
  | n + 1, l => if l = [] then [] else l.take 800 :: chunkAux n (l.drop 700)

def chunksOfContent (content : List Char) : List (List Char) :=
  chunkAux (content.length + 1) content

structure ScoredChunk where
  fileName : List Char
  content : List Char
  score : Nat
deriving DecidableEq

/-- Window score: one point per query keyword (with multiplicity) occurring in
the lowercased window (lowerChunk.includes(k)). -/
def scoreChunk (keywords : List (List Char)) (chunk : List Char) : Nat :=
  keywords.countP (fun k => containsList k (lower chunk))

/-- Per-file chunking and scoring; zero-score windows are discarded. -/
def scoredChunksOfFile (keywords : List (List Char)) (f : KnowledgeFile) : List ScoredChunk :=
  (chunksOfContent f.content).filterMap (fun ch =>
    let s := scoreChunk keywords ch
    if 0 < s then some ⟨f.name, ch, s⟩ else none)

/-- Stable insertion of a into an already sorted list: a goes before the first
element b with le a b.  Together with stableSort this models the stable
Array.prototype.sort of ES2019. -/
def stableInsert (le : α → α → Bool) (a : α) : List α → List α
  | [] => [a]
  | b :: rest => if le a b then a :: b :: rest else b :: stableInsert le a rest

/-- Stable sort (insertion sort): equal elements keep their encounter order,
as guaranteed by Array.prototype.sort with comparator (a, b) => b.score - a.score. -/
def stableSort (le : α → α → Bool) : List α → List α
  | [] => []
  | a :: rest => stableInsert le a (stableSort le rest)

/-- The comparator (a, b) => b.score - a.score: a precedes b when
b.score ≤ a.score (ties stay in encounter order by stability). -/
def scoreDescLe (a b : ScoredChunk) : Bool := decide (b.score ≤ a.score)

/-- The tagged fragment entry appended for one chunk. -/
def chunkEntry (c : ScoredChunk) : List Char :=
  str "\n--- Fragment from " ++ c.fileName ++ str " (Relevance: " ++
  str (Nat.repr c.score) ++ str ") ---\n" ++ c.content ++ str "\n"

/-- Context assembly loop: append entries until one would push the accumulated
size past maxChars, then stop (break). -/
def assembleContext (maxChars : Nat) : List ScoredChunk → List Char → Nat → List Char
  | [], buffer, _ => buffer
  | c :: rest, buffer, used =>
    let entry := chunkEntry c
    if maxChars < used + entry.length then buffer
    else assembleContext maxChars rest (buffer ++ entry) (used + entry.length)

/-- Header line prepended to a nonempty retrieval block. -/
def smartHeader : List Char :=
  str "[Smart Context Retrieval]\nThe following are relevant document fragments found for the user's query:\n"

/-- Fallback when no keywords survive: the first 2000 characters of every file,
joined with blank lines. -/
def fallbackContext (files : List KnowledgeFile) : List Char :=
  List.intercalate (str "\n\n") (files.map (fun f => f.content.take 2000))

def DEFAULT_MAX_CHARS : Nat := 30000

/-- retrieveRelevantContext(query, files, maxChars): the client-side RAG
algorithm of useChatEngine.ts. -/
def retrieveRelevantContext (query : List Char) (files : List KnowledgeFile)
    (maxChars : Nat) : List Char :=
  if files = [] then []
  else
    let keywords := keywordsOf query
    if keywords = [] then fallbackContext files
    else
      let allChunks := files.flatMap (scoredChunksOfFile keywords)
      let sorted := stableSort scoreDescLe allChunks
      let topChunks := sorted.take 15
      let contextBuffer := assembleContext maxChars topChunks [] 0
      if contextBuffer = [] then []
      else smartHeader ++ contextBuffer ++ str "\n\n"

/- ===================== transport resilience (geminiService.ts lines 14-54) ===================== -/

/-- The fixed retryable patterns of the retry function (lowercase bodies of the
case-insensitive regexes). -/
def retryablePatterns : List (List Char) :=
  [str "network error", str "failed to fetch", str "connection refused",
   str "load failed", str "timeout", str "429", str "500", str "502",
   str "503", str "504"]

/-- A failure message is retryable when some pattern matches it
(case-insensitive substring, i.e. regex.test with the i flag). -/
def isRetryableError (msg : List Char) : Bool :=
  retryablePatterns.any (fun p => containsList p (lower msg))

/-- The retry loop.  The result carries the outcome and the list of backoff
delays actually waited (delay * 2 ^ attemptIndex before each re-attempt).
op i is the outcome of attempt i; remaining encodes the loop guard
i < maxRetries (invariant: remaining = maxRetries - i); the base case 0
models the unreachable post-loop throw of 重试失败. -/
def retryAux (op : Nat → Except (List Char) V) (delay maxRetries : Nat) :
    Nat → Nat → Except (List Char) V × List Nat
  | 0, _ => (.error (str "重试失败"), [])
  | remaining + 1, i =>
    match op i with
    | .ok v => (.ok v, [])
    | .error e =>
      if isRetryableError e = false ∨ i = maxRetries - 1 then (.error e, [])
      else
        let rest := retryAux op delay maxRetries remaining (i + 1)
        (rest.1, delay * 2 ^ i :: rest.2)

/-- retry(fn, maxRetries, delay, retryableErrors): runs fn up to maxRetries
times with exponential backoff on retryable failures. -/
def retry (op : Nat → Except (List Char) V) (maxRetries delay : Nat) :
    Except (List Char) V × List Nat :=
  retryAux op delay maxRetries maxRetries 0

/- ===================== error translator (geminiService.ts lines 381-429) ===================== -/

def illegalCharMsg : List Char :=
  str "API Key 或 Base URL 包含非法字符（如中文、全角字符或控制符）。请使用纯英文格式输入。"
def networkFailMsg : List Char :=
  str "网络请求失败，请检查您的网络连接、代理设置或防火墙配置。"
def unauthorizedMsg : List Char :=
  str "API Key 无效或已过期 (401)。请检查您的 API Key 是否正确输入。"
def paymentMsg : List Char :=
  str "账户余额不足 (402)。请为您的账户充值，或减少 max_tokens 参数值以降低单次请求成本。"
def apiDisabledMsg : List Char :=
  str "API 服务未启用 (403)。请在 Google Cloud Console 中启用相应的 API 服务。"
def forbiddenMsg : List Char :=
  str "权限不足或区域受限 (403)。您可能没有使用该模型的权限，或该模型在您所在地区不可用。"
def notFoundMsg : List Char :=
  str "路径或模型未找到 (404)。请检查 Base URL 是否正确，或确认您使用的模型是否存在。"
def rateLimitMsg : List Char :=
  str "请求过于频繁 (429)。请稍等片刻后再尝试，或减少请求频率。"
def quotaMsg : List Char :=
  str "配额已用尽 (429)。您的 API 配额已达到上限，请等待重置或联系提供商增加配额。"
def rateOrQuotaMsg : List Char := str "请求过快或额度已用尽 (429)。"
def serverErrMsg : List Char :=
  str "服务商服务器繁忙或出现错误 (5xx)。请稍后再试，或联系 API 提供商获取支持。"
def badRequestMsg : List Char :=
  str "请求格式错误 (400)。请检查您的请求参数是否正确，或联系技术支持获取帮助。"

/-- translateError: ordered substring matching on the lowercased failure text,
first match wins; the input is the failure's message text
(error.message or its toString). -/
def translateError (origMsg : List Char) : List Char :=
  let msg := lower origMsg
  if containsList (str "iso-8859-1") msg || containsList (str "headers") msg then
    illegalCharMsg
  else if containsList (str "failed to fetch") msg || containsList (str "network error") msg ||
      containsList (str "connection refused") msg || containsList (str "load failed") msg then
    networkFailMsg
  else if containsList (str "401") msg || containsList (str "unauthorized") msg ||
      containsList (str "invalid_api_key") msg then
    unauthorizedMsg
  else if containsList (str "402") msg || containsList (str "payment required") msg ||
      containsList (str "requires more credits") msg then
    paymentMsg
  else if containsList (str "403") msg || containsList (str "permission denied") msg ||
      containsList (str "access denied") msg then
    if containsList (str "generative language api") msg ||
        containsList (str "api has not been used") msg then
      apiDisabledMsg
    else forbiddenMsg
  else if containsList (str "404") msg || containsList (str "not found") msg then
    notFoundMsg
  else if containsList (str "429") msg || containsList (str "rate limit") msg ||
      containsList (str "quota") msg then
    if containsList (str "rate limit") msg then rateLimitMsg
    else if containsList (str "quota") msg then quotaMsg
    else rateOrQuotaMsg
  else if containsList (str "500") msg || containsList (str "502") msg ||
      containsList (str "503") msg || containsList (str "internal server error") msg then
    serverErrMsg
  else if containsList (str "400") msg || containsList (str "invalid argument") msg then
    badRequestMsg
  else
    str "请求出错: " ++
      (if 200 < origMsg.length then origMsg.take 200 ++ str "..." else origMsg)

/- ===================== history pruning and conversion (geminiService.ts) ===================== -/

/-- The filter of getPrunedHistory and convertHistoryToGemini:
m => !m.isError && m.role !== MessageRole.SYSTEM. -/
def msgKeep (m : Message) : Bool :=
  !(m.isError.getD false) && !(decide (m.role = MessageRole.SYSTEM))

/-- getPrunedHistory(history, maxContext): valid messages, then
slice(-maxContext) (the whole list when maxContext = 0, a JS slice(-0) quirk). -/
def getPrunedHistory (history : List Message) (maxContext : Nat) : List Message :=
  jsSliceLast (history.filter msgKeep) maxContext

/-- A typed part of a native-family turn. -/
inductive Part where
  | text (s : List Char)
  | inlineData (data : List Char) (mimeType : List Char)
deriving DecidableEq, Repr

structure GContent where
  role : List Char
  parts : List Part
deriving DecidableEq, Repr

/-- The synthetic filler turn { role: model, parts: [{ text: ... }] }. -/
def fillerContent : GContent := ⟨str "model", [Part.text (str "...")]⟩

/-- The parts list built for one history message in convertHistoryToGemini:
text part when content is nonempty after trim, one inlineData part per
attachment (base64 payload after the comma; mimeType falling back to the data
URI header), with the repair of pushing a single-space text when content is
truthy but produced no part, and the skip (empty list) otherwise. -/
def historyPartsOf (m : Message) : List Part :=
  let base :=
    (if m.content ≠ [] ∧ jsTrim m.content ≠ [] then [Part.text m.content] else []) ++
    (m.attachments.getD []).map (fun att =>
      Part.inlineData ((splitOnChar ',' att.data).getD 1 [])
        (if att.mimeType ≠ [] then att.mimeType
         else (splitOnChar ':' ((splitOnChar ';' att.data).getD 0 [])).getD 1 []))
  if base = [] then (if m.content ≠ [] then [Part.text (str " ")] else []) else base

/-- The loop of convertHistoryToGemini: emits each surviving message with its
role tag, inserting the filler model turn when a user turn would follow a user
turn; skipped messages leave lastRole unchanged. -/
def convertAux : List Message → List Char → List GContent
  | [], _ => []
  | m :: rest, lastRole =>
    let role := if m.role = MessageRole.USER then str "user" else str "model"
    let parts := historyPartsOf m
    if parts = [] then convertAux rest lastRole
    else if role = str "user" ∧ lastRole = str "user" then
      fillerContent :: ⟨role, parts⟩ :: convertAux rest role
    else ⟨role, parts⟩ :: convertAux rest role

/-- The final repair of convertHistoryToGemini: when the prepared history is
nonempty and its last turn is user-role, a filler model turn is appended. -/
def appendFinalFiller (gc : List GContent) : List GContent :=
  match gc.getLast? with
  | some c => if c.role = str "user" then gc ++ [fillerContent] else gc
  | none => gc

/-- convertHistoryToGemini: filter, alternation-repair loop, and the final
filler model turn when the prepared history ends with a user turn. -/
def convertHistoryToGemini (messages : List Message) : List GContent :=
  appendFinalFiller (convertAux (messages.filter msgKeep) [])

/- ===================== outbound request serialization (geminiService.ts) ===================== -/

inductive ModelProvider where
  | google | openai | anthropic | deepseek | alibaba | tencent | moonshot
  | zhipu | minimax | baichuan | yi | siliconflow | grok | openrouter | custom
deriving DecidableEq, Repr

/-- The parts of the current turn in streamGoogleMessage (text when nonempty
after trim, then one inlineData per attachment with att.mimeType taken as-is). -/
def googleCurrentParts (currentInput : List Char) (attachments : List Attachment) :
    List Part :=
  (if currentInput ≠ [] ∧ jsTrim currentInput ≠ [] then [Part.text currentInput] else []) ++
  attachments.map (fun att =>
    Part.inlineData ((splitOnChar ',' att.data).getD 1 []) att.mimeType)

/-- The contents array of the native-family generate request: converted pruned
history followed by the current user turn; the empty-message repair and the
"Cannot send empty message" throw are modelled with Except. -/
def googleRequestContents (currentInput : List Char) (attachments : List Attachment)
    (history : List Message) (config : GenerationConfig) :
    Except (List Char) (List GContent) :=
  let parts := googleCurrentParts currentInput attachments
  let parts' := if parts = [] then
      (if currentInput ≠ [] then [Part.text (str " ")] else []) else parts
  if parts' = [] then .error (str "Cannot send empty message")
  else
    let previousContents :=
      convertHistoryToGemini (getPrunedHistory history config.historyLimit)
    .ok (previousContents ++ [⟨str "user", parts'⟩])

/-- One element of the role-tagged message array of the OpenAI-compatible
request body. -/
inductive ApiPart where
  | textPart (t : List Char)
  | imageUrl (url : List Char)
deriving DecidableEq, Repr

inductive ApiContent where
  | plain (t : List Char)
  | multi (parts : List ApiPart)
deriving DecidableEq, Repr

structure ApiMsg where
  role : List Char
  content : ApiContent
deriving DecidableEq, Repr

/-- The vision heuristic of streamOpenAICompatibleMessage. -/
def supportsVisionModel (modelId : List Char) : Bool :=
  containsList (str "vision") modelId || containsList (str "4o") modelId ||
  containsList (str "claude") modelId || containsList (str "gemini") modelId ||
  containsList (str "llava") modelId

/-- processContent(text, atts): plain text when there are no attachments;
otherwise a text part (single space when text is empty) plus a data-URI image
part per image attachment when the model supports vision, non-image kinds
dropped; collapses back to plain text when only the text part remains. -/
def processContent (vision : Bool) (text : List Char) (atts : Option (List Attachment)) :
    ApiContent :=
  match atts with
  | none => .plain text
  | some as =>
    if as = [] then .plain text
    else
      let t := if text = [] then str " " else text
      let imgs := as.filterMap (fun att =>
        if vision && decide (att.type = ContentType.IMAGE) then
          some (ApiPart.imageUrl att.data)
        else none)
      if imgs = [] then .plain t else .multi (ApiPart.textPart t :: imgs)

/-- The optional leading system message of the OpenAI-compatible request
(absent for the Anthropic family and for o1 models). -/
def openaiSysPart (provider : ModelProvider) (modelId : List Char)
    (systemInstruction : Option (List Char)) : List ApiMsg :=
  match systemInstruction with
  | some s =>
    if s ≠ [] ∧ provider ≠ ModelProvider.anthropic ∧
        ¬ (containsList (str "o1") modelId = true) then
      [⟨str "system", .plain s⟩]
    else []
  | none => []

/-- The serialized history segment of the OpenAI-compatible request: one
role-tagged message per pruned history entry, skipping entries with no content
and no attachments. -/
def openaiHistoryPart (vision : Bool) (pruned : List Message) : List ApiMsg :=
  pruned.filterMap (fun m =>
    if m.content = [] ∧ m.attachments.getD [] = [] then none
    else some (ApiMsg.mk
      (if m.role = MessageRole.USER then str "user" else str "assistant")
      (processContent vision m.content m.attachments)))

/-- The apiMessages array of streamOpenAICompatibleMessage: optional system
message, serialized pruned history, then the current user turn. -/
def openaiApiMessages (provider : ModelProvider) (modelId : List Char)
    (currentInput : List Char) (attachments : List Attachment)
    (history : List Message) (systemInstruction : Option (List Char))
    (config : GenerationConfig) : List ApiMsg :=
  let vision := supportsVisionModel modelId
  openaiSysPart provider modelId systemInstruction ++
  openaiHistoryPart vision (getPrunedHistory history config.historyLimit) ++
  [⟨str "user", processContent vision currentInput (some attachments)⟩]

/-- For the Anthropic-compatible family the body's messages drop system-role
entries (body.messages = apiMessages.filter(m => m.role !== system)). -/
def openaiRequestBodyMessages (provider : ModelProvider) (modelId : List Char)
    (currentInput : List Char) (attachments : List Attachment)
    (history : List Message) (systemInstruction : Option (List Char))
    (config : GenerationConfig) : List ApiMsg :=
  let msgs := openaiApiMessages provider modelId currentInput attachments history
    systemInstruction config
  if provider = ModelProvider.anthropic then
    msgs.filter (fun m => !(decide (m.role = str "system")))
  else msgs

/- ===================== streaming loop and engine (C1, C2, C10) ===================== -/

/-- A JS Error value as observed by the catch handlers: name and message. -/
structure JsError where
  name : List Char
  message : List Char
deriving DecidableEq, Repr

/-- One partial payload of the native-family stream: optional text delta and
optional grounding metadata. -/
structure GChunk where
  text : Option (List Char)
  grounding : Option GroundingMetadata
deriving DecidableEq, Repr

/-- The incremental read loop of streamGoogleMessage: before consuming each
chunk the cancellation token is checked (signal.aborted at iteration i);
text deltas are concatenated, metadata is last-seen-wins, and each chunk
triggers one onUpdate(accumulatedText, accumulatedMetadata).  Returns the list
of onUpdate calls and whether the loop halted with the AbortError throw. -/
def googleStreamLoop (aborted : Nat → Bool) :
    List GChunk → Nat → List Char → Option GroundingMetadata →
    List (List Char × Option GroundingMetadata) × Bool
  | [], _, _, _ => ([], false)
  | c :: rest, i, accText, accMeta =>
    if aborted i then ([], true)
    else
      let accText' := accText ++ (c.text.getD [])
      let accMeta' := match c.grounding with
        | some g => some g
        | none => accMeta
      let r := googleStreamLoop aborted rest (i + 1) accText' accMeta'
      ((accText', accMeta') :: r.1, r.2)

/-- The DOMException thrown by the loop on cancellation. -/
def abortException : JsError := ⟨str "AbortError", str "Aborted"⟩

/-- sendMessageStream on the native path: runs the stream loop and, per the
catch handler (throw new Error(translateError(e))), wraps any failure —
including the cancellation DOMException — into a plain Error whose name is
"Error" and whose message is the translated text. -/
def sendMessageStreamGoogle (aborted : Nat → Bool) (chunks : List GChunk) :
    List (List Char × Option GroundingMetadata) × Option JsError :=
  let r := googleStreamLoop aborted chunks 0 [] none
  (r.1, if r.2 then some ⟨str "Error", translateError abortException.message⟩ else none)

/-- The per-increment sink update of sendMessage: map over the optimistic
snapshot, replacing the placeholder's text and merging metadata only when
provided (metadata || m.groundingMetadata). -/
def applyIncrement (snapshot : List Message) (botMsgId : List Char)
    (content : List Char) (metadata : Option GroundingMetadata) : List Message :=
  snapshot.map (fun m =>
    if m.id = botMsgId then
      { m with
        content := content
        groundingMetadata := match metadata with
          | some g => some g
          | none => m.groundingMetadata }
    else m)

/-- The error handling of sendMessage around the stream: increments observed,
whether the placeholder was marked errored, and the error text attached to it
(error.message, or 生成出错 when empty); an error named AbortError would be
swallowed without marking. -/
def engineGoogleSend (aborted : Nat → Bool) (chunks : List GChunk) :
    List (List Char × Option GroundingMetadata) × Bool × Option (List Char) :=
  match sendMessageStreamGoogle aborted chunks with
  | (ups, none) => (ups, false, none)
  | (ups, some e) =>
    if e.name = str "AbortError" then (ups, false, none)
    else (ups, true, some (if e.message ≠ [] then e.message else str "生成出错"))

/- ===================== lane cancellation tokens (C1) ===================== -/

/-- An event on the lane's token slot. -/
inductive TokenEvent where
  | create (id : Nat)
  | invalidate (id : Nat)
deriving DecidableEq, BEq, Repr

/-- The token events of sendMessage's superseding block (useChatEngine.ts
lines 148-153): the previous controller is saved, the NEW controller is
created and installed first, and the old one is aborted afterwards. -/
def sendTokenEvents (prev : Option Nat) (newId : Nat) : List TokenEvent :=
  TokenEvent.create newId ::
    (match prev with
     | some p => [TokenEvent.invalidate p]
     | none => [])

/-- A cancellation token: identity and cancelled flag. -/
structure Token where
  id : Nat
  cancelled : Bool
deriving DecidableEq, Repr

def applyTokenEvent (s : List Token) : TokenEvent → List Token
  | .create i => s ++ [⟨i, false⟩]
  | .invalidate i => s.map (fun t => if t.id = i then ⟨t.id, true⟩ else t)

/-- Every instantaneous state along an event sequence (initial, after each
event). -/
def tokenStates (s0 : List Token) (evs : List TokenEvent) : List (List Token) :=
  evs.scanl applyTokenEvent s0

def liveCount (s : List Token) : Nat := s.countP (fun t => !t.cancelled)

/-- Does an invalidation of oldId occur strictly before the creation of newId
in the event sequence? -/
def invalidateBeforeCreate (oldId newId : Nat) : List TokenEvent → Bool
  | [] => false
  | TokenEvent.create i :: rest =>
    if i = newId then false else invalidateBeforeCreate oldId newId rest
  | TokenEvent.invalidate i :: rest =>
    if i = oldId then rest.contains (TokenEvent.create newId)
    else invalidateBeforeCreate oldId newId rest

/- ===================== regenerate (useChatEngine.ts lines 188-212) ===================== -/

inductive RegenAction where
  | noop
  | resend (text : List Char) (atts : List Attachment) (hidden : Bool)
      (baseHistory : List Message)
deriving DecidableEq

/-- regenerate(history): no-op unless the last message is a model turn whose
predecessor is a user turn; otherwise re-sends the user turn's content,
attachments (|| []) and hidden flag against the history before that user turn. -/
def regenerateAction (history : List Message) : RegenAction :=
  match history.getLast? with
  | none => .noop
  | some lastMsg =>
    if lastMsg.role ≠ MessageRole.MODEL then .noop
    else
      let historyWithoutLastBot := history.dropLast
      match historyWithoutLastBot.getLast? with
      | none => .noop
      | some lastUserMsg =>
        if lastUserMsg.role ≠ MessageRole.USER then .noop
        else .resend lastUserMsg.content (lastUserMsg.attachments.getD [])
          (lastUserMsg.isHidden.getD false) historyWithoutLastBot.dropLast

/- ===================== auxiliary predicates and sample values ===================== -/

/-- No two adjacent elements are both the user role. -/
def noUserUser : List (List Char) → Bool
  | a :: b :: rest =>
    !(decide (a = str "user") && decide (b = str "user")) && noUserUser (b :: rest)
  | _ => true

/-- No two adjacent elements are equal (no two consecutive turns share a role). -/
def noAdjacentSameRole : List (List Char) → Bool
  | a :: b :: rest => !(decide (a = b)) && noAdjacentSameRole (b :: rest)
  | _ => true

/-- Sample user message. -/
def uMsg : Message := { id := str "u1", role := MessageRole.USER, content := str "hi", timestamp := 0 }

/-- Sample model (placeholder) message. -/
def bMsg : Message := { id := str "bot", role := MessageRole.MODEL, content := [], timestamp := 1 }

/-- Sample second model message. -/
def bMsg2 : Message := { id := str "bot2", role := MessageRole.MODEL, content := str "b", timestamp := 2 }

/-- Sample third model message. -/
def bMsg3 : Message := { id := str "bot3", role := MessageRole.MODEL, content := str "c", timestamp := 3 }

/-- Sample knowledge file whose text is "hello". -/
def helloFile : KnowledgeFile := ⟨str "1", str "f", str "hello", 5, 0, true⟩

/-- Sample knowledge file whose text is "ab". -/
def abFile : KnowledgeFile := ⟨str "2", str "g", str "ab", 2, 0, true⟩

/-- Sample generation config (the defaults of constants.ts, opaque sampling
fields collapsed to 0). -/
def defaultConfig : GenerationConfig := ⟨0, 0, 8192, 20, some false⟩

/- ===================== theorems ===================== -/

/-- C1 (counterexample): on a lane holding one live token (id 0), the token
events of a new send (new id 1) violate the claim: the mid-swap state holds
two non-cancelled tokens, and the old token is not invalidated before the new
one is created (the code creates the new controller first, then aborts the old
one). -/
theorem c1_counterexample :
    ¬ ((∀ s ∈ tokenStates [⟨0, false⟩] (sendTokenEvents (some 0) 1), liveCount s ≤ 1) ∧
       invalidateBeforeCreate 0 1 (sendTokenEvents (some 0) 1) = true) := by
  decide

/-- C1 (amended): when send supersedes a live token p with a fresh token n, it
creates n first and invalidates p immediately afterwards, within the same
synchronous block; once the swap completes, p is cancelled and exactly one
non-cancelled token (n) remains — and a send on an idle lane simply installs
one live token. -/
theorem c1_token_supersede (p n : Nat) (hpn : p ≠ n) :
    (sendTokenEvents (some p) n).foldl applyTokenEvent [⟨p, false⟩] =
      [⟨p, true⟩, ⟨n, false⟩] ∧
    liveCount ((sendTokenEvents (some p) n).foldl applyTokenEvent [⟨p, false⟩]) = 1 ∧
    (sendTokenEvents none n).foldl applyTokenEvent [] = [⟨n, false⟩] := by
  have hnp : n ≠ p := fun h => hpn h.symm
  refine ⟨?_, ?_, rfl⟩ <;>
    simp [sendTokenEvents, applyTokenEvent, liveCount, hnp, List.countP_cons]

/-- C1 (witness): the amended theorem at the concrete swap 0 → 1. -/
theorem c1_witness :
    (sendTokenEvents (some 0) 1).foldl applyTokenEvent [⟨0, false⟩] =
      [⟨0, true⟩, ⟨1, false⟩] ∧
    liveCount ((sendTokenEvents (some 0) 1).foldl applyTokenEvent [⟨0, false⟩]) = 1 ∧
    (sendTokenEvents none 1).foldl applyTokenEvent [] = [⟨1, false⟩] :=
  c1_token_supersede 0 1 (by decide)

/-- C2 (code bug, evaluated at the failing input): a generation whose
cancellation token is already aborted before the first chunk arrives applies
no increment, yet the placeholder IS marked errored with the translated text
请求出错: Aborted — because sendMessageStream's catch wraps the AbortError in a
plain Error, so the engine's name check never recognises cancellation. -/
theorem c2_cancellation_marks_error :
    engineGoogleSend (fun _ => true) [⟨some (str "hi"), none⟩] =
      ([], true, some (str "请求出错: Aborted")) := by
  decide

/-- C10: each increment's sink invocation maps the optimistic snapshot
pointwise: a message whose id differs from the placeholder id is passed
through unchanged, and the message carrying the placeholder id changes only in
its text content and grounding metadata (metadata merged only when provided);
the list length is preserved. -/
theorem c10_increment_frame (snapshot : List Message) (botMsgId content : List Char)
    (metadata : Option GroundingMetadata) (i : Nat) (m : Message)
    (h : snapshot[i]? = some m) :
    (applyIncrement snapshot botMsgId content metadata).length = snapshot.length ∧
    (m.id ≠ botMsgId → (applyIncrement snapshot botMsgId content metadata)[i]? = some m) ∧
    (m.id = botMsgId → (applyIncrement snapshot botMsgId content metadata)[i]? =
      some { m with
             content := content
             groundingMetadata := match metadata with
               | some g => some g
               | none => m.groundingMetadata }) := by
  refine ⟨by simp [applyIncrement], ?_, ?_⟩ <;> intro hid <;>
    simp [applyIncrement, List.getElem?_map, h, hid]

/-- C10 (witness): the frame theorem at a concrete two-message snapshot,
updating the placeholder bMsg. -/
theorem c10_witness :
    (applyIncrement [uMsg, bMsg] (str "bot") (str "x") none)[1]? =
      some { bMsg with
             content := str "x"
             groundingMetadata := bMsg.groundingMetadata } :=
  (c10_increment_frame [uMsg, bMsg] (str "bot") (str "x") none 1 bMsg rfl).2.2 rfl

/-- Assembly invariant: starting from a buffer whose length is the used
counter and does not exceed maxChars, the assembled buffer never exceeds
maxChars. -/
theorem assembleContext_length_le (maxChars : Nat) :
    ∀ (chunks : List ScoredChunk) (buffer : List Char) (used : Nat),
      buffer.length = used → used ≤ maxChars →
      (assembleContext maxChars chunks buffer used).length ≤ maxChars := by
  intro chunks
  induction chunks with
  | nil => intro buffer used hlen hle; simpa [assembleContext, hlen] using hle
  | cons c rest ih =>
    intro buffer used hlen hle
    by_cases hcase : maxChars < used + (chunkEntry c).length
    · simpa [assembleContext, hcase, hlen] using hle
    · simp only [assembleContext, if_neg hcase]
      exact ih (buffer ++ chunkEntry c) (used + (chunkEntry c).length)
        (by simp [hlen]) (Nat.le_of_not_lt hcase)

/-- C3 (counterexample): with query "" (no keywords), one two-character file
and maxChars = 1, the fallback path returns "ab", which exceeds maxChars. -/
theorem c3_counterexample :
    ¬ ((retrieveRelevantContext (str "") [abFile] 1).length ≤ 1) := by
  decide

/-- C3 (amended): whenever the query yields at least one keyword, the
retrieval block never exceeds maxChars plus the fixed wrapper (header line and
two trailing newlines) — the fragment buffer itself is capped at maxChars; the
no-keyword fallback path is not bounded by maxChars. -/
theorem c3_maxChars_bound (query : List Char) (files : List KnowledgeFile)
    (maxChars : Nat) (hk : keywordsOf query ≠ []) :
    (retrieveRelevantContext query files maxChars).length ≤
      maxChars + (smartHeader.length + 2) := by
  unfold retrieveRelevantContext
  by_cases hf : files = []
  · simp [hf]
  · simp only [if_neg hf, if_neg hk]
    set top := (stableSort scoreDescLe (files.flatMap (scoredChunksOfFile (keywordsOf query)))).take 15 with htop
    have hbuf : (assembleContext maxChars top [] 0).length ≤ maxChars :=
      assembleContext_length_le maxChars top [] 0 rfl (Nat.zero_le _)
    by_cases hempty : assembleContext maxChars top [] 0 = []
    · simp [hempty]
    · simp only [if_neg hempty, List.length_append]
      have h2 : (str "\n\n").length = 2 := rfl
      omega

/-- C3 (witness): the amended bound at a concrete keyword-bearing query. -/
theorem c3_witness :
    (retrieveRelevantContext (str "hello") [helloFile] 0).length ≤
      0 + (smartHeader.length + 2) :=
  c3_maxChars_bound (str "hello") [helloFile] 0 (by decide)

/-- C6 (counterexample): the failure text "failed to fetch 401 404" contains
both "401" and "404" yet classifies as network-unreachable, because the
network rule is matched first — refuting the claim's universal statement. -/
theorem c6_counterexample :
    containsList (str "401") (lower (str "failed to fetch 401 404")) = true ∧
    containsList (str "404") (lower (str "failed to fetch 401 404")) = true ∧
    translateError (str "failed to fetch 401 404") ≠ unauthorizedMsg := by
  refine ⟨by decide, by decide, ?_⟩
  decide

/-- C6 (amended): translation is ordered substring matching, first match wins:
every failure message containing both "401" and "404" classifies as
unauthorized provided none of the earlier rules (illegal-character, network)
match it; in particular "Error 404: 401 unauthorized" is unauthorized, not
not-found. -/
theorem c6_first_match_unauthorized (msg : List Char)
    (h401 : containsList (str "401") (lower msg) = true)
    (h404 : containsList (str "404") (lower msg) = true)
    (hiso : containsList (str "iso-8859-1") (lower msg) = false)
    (hhdr : containsList (str "headers") (lower msg) = false)
    (hftf : containsList (str "failed to fetch") (lower msg) = false)
    (hne : containsList (str "network error") (lower msg) = false)
    (hcr : containsList (str "connection refused") (lower msg) = false)
    (hlf : containsList (str "load failed") (lower msg) = false) :
    translateError msg = unauthorizedMsg := by
  simp [translateError, h401, hiso, hhdr, hftf, hne, hcr, hlf]

/-- C6 (witness): the amended theorem at the claim's concrete example input. -/
theorem c6_witness :
    translateError (str "Error 404: 401 unauthorized") = unauthorizedMsg :=
  c6_first_match_unauthorized (str "Error 404: 401 unauthorized")
    (by decide) (by decide) (by decide) (by decide) (by decide) (by decide)
    (by decide) (by decide)

/-- A failure whose lowercased text contains "503" is classified retryable
("503" is one of the fixed patterns). -/
theorem retryable_of_503 (e : List Char)
    (h : containsList (str "503") (lower e) = true) : isRetryableError e = true := by
  simp only [isRetryableError, retryablePatterns, List.any_eq_true]
  exact ⟨str "503", by simp, h⟩

/-- C5: with the default budget (3 attempts, base delay 1000 ms):
an operation failing twice with a 503-classified error and succeeding on the
third attempt is retried exactly twice with delays 1000 then 2000 and its
success value is returned; a non-retryable first failure is propagated
unchanged with no retry; and on exhaustion of the budget the operation's own
(final-attempt) failure is propagated unchanged after the same two delays. -/
theorem c5_retry_backoff :
    (∀ (V : Type) (op : Nat → Except (List Char) V) (e0 e1 : List Char) (v : V),
      op 0 = .error e0 → op 1 = .error e1 → op 2 = .ok v →
      containsList (str "503") (lower e0) = true →
      containsList (str "503") (lower e1) = true →
      retry op 3 1000 = (.ok v, [1000, 2000])) ∧
    (∀ (V : Type) (op : Nat → Except (List Char) V) (e : List Char),
      op 0 = .error e → isRetryableError e = false →
      retry op 3 1000 = (.error e, [])) ∧
    (∀ (V : Type) (op : Nat → Except (List Char) V) (e0 e1 e2 : List Char),
      op 0 = .error e0 → op 1 = .error e1 → op 2 = .error e2 →
      isRetryableError e0 = true → isRetryableError e1 = true →
      retry op 3 1000 = (.error e2, [1000, 2000])) := by
  refine ⟨?_, ?_, ?_⟩
  · intro V op e0 e1 v h0 h1 h2 hc0 hc1
    have r0 := retryable_of_503 e0 hc0
    have r1 := retryable_of_503 e1 hc1
    simp [retry, retryAux, h0, h1, h2, r0, r1]
  · intro V op e h0 hr
    simp [retry, retryAux, h0, hr]
  · intro V op e0 e1 e2 h0 h1 h2 r0 r1
    simp [retry, retryAux, h0, h1, h2, r0, r1]

/-- C5 (witness): the retry theorem at concrete operations — two 503 failures
then success 7; a non-retryable 400 failure; and three 503 failures. -/
theorem c5_witness :
    retry (fun i => if i < 2 then Except.error (str "HTTP 503") else Except.ok (7 : Nat))
        3 1000 = (Except.ok 7, [1000, 2000]) ∧
    retry (fun _ => (Except.error (str "bad request") : Except (List Char) Nat))
        3 1000 = (Except.error (str "bad request"), []) ∧
    retry (fun _ => (Except.error (str "oops 503") : Except (List Char) Nat))
        3 1000 = (Except.error (str "oops 503"), [1000, 2000]) :=
  ⟨c5_retry_backoff.1 Nat _ (str "HTTP 503") (str "HTTP 503") 7 rfl rfl rfl
     (by decide) (by decide),
   c5_retry_backoff.2.1 Nat _ (str "bad request") rfl (by decide),
   c5_retry_backoff.2.2 Nat _ (str "oops 503") (str "oops 503") (str "oops 503")
     rfl rfl rfl (by decide) (by decide)⟩

/-- C7: retrieval boundary behaviour: when the query yields no keywords the
function returns the first 2000 characters of every file joined with blank
lines (the fallback), and when keywords exist but no 800-character window of
any file scores above zero the function returns the empty string. -/
theorem c7_retrieval_edge_cases (query : List Char) (files : List KnowledgeFile)
    (maxChars : Nat) :
    (keywordsOf query = [] →
      retrieveRelevantContext query files maxChars = fallbackContext files) ∧
    (keywordsOf query ≠ [] →
      (∀ f ∈ files, ∀ ch ∈ chunksOfContent f.content,
        scoreChunk (keywordsOf query) ch = 0) →
      retrieveRelevantContext query files maxChars = []) := by
  constructor
  · intro hk
    unfold retrieveRelevantContext
    by_cases hf : files = []
    · simp [hf, fallbackContext, List.intercalate]
    · simp [hf, hk]
  · intro hk hscore
    unfold retrieveRelevantContext
    by_cases hf : files = []
    · simp [hf]
    · have hall : files.flatMap (scoredChunksOfFile (keywordsOf query)) = [] := by
        rw [List.flatMap_eq_nil_iff]
        intro f hfmem
        unfold scoredChunksOfFile
        rw [List.filterMap_eq_nil_iff]
        intro ch hch
        simp [hscore f hfmem ch hch]
      simp [hf, hk, hall, stableSort, assembleContext]

/-- C7 (witness): the edge cases at concrete inputs — the single-letter query
"a b" has no keyword longer than one character and falls back to the joined
file prefixes, and the keyword "zebra" scores zero on the file "hello" giving
the empty result. -/
theorem c7_witness :
    retrieveRelevantContext (str "a b") [abFile] 5 = fallbackContext [abFile] ∧
    retrieveRelevantContext (str "zebra") [helloFile] 30000 = [] :=
  ⟨(c7_retrieval_edge_cases (str "a b") [abFile] 5).1 (by decide),
   (c7_retrieval_edge_cases (str "zebra") [helloFile] 30000).2 (by decide) (by decide)⟩

/-- C8: regenerate is a no-op unless the history ends with a model turn
immediately preceded by a user turn; and when the history has that shape
pre ++ [u, m], it re-sends u's text, attachments and hidden flag against the
history pre that existed before the user turn (the last model message m
dropped). -/
theorem c8_regenerate (history : List Message) :
    (regenerateAction history = RegenAction.noop ∨
      ∃ pre u m, history = pre ++ [u, m] ∧
        u.role = MessageRole.USER ∧ m.role = MessageRole.MODEL) ∧
    (∀ pre u m, history = pre ++ [u, m] →
      u.role = MessageRole.USER → m.role = MessageRole.MODEL →
      regenerateAction history =
        RegenAction.resend u.content (u.attachments.getD [])
          (u.isHidden.getD false) pre) := by
  constructor
  · rcases List.eq_nil_or_concat history with hnil | ⟨L, m, hLm⟩
    · subst hnil; left; rfl
    · by_cases hm : m.role = MessageRole.MODEL
      · rcases List.eq_nil_or_concat L with hLnil | ⟨L', u, hLu⟩
        · subst hLm; subst hLnil; left
          simp [regenerateAction, hm]
        · by_cases hu : u.role = MessageRole.USER
          · right
            exact ⟨L', u, m,
              by simp [hLm, hLu, List.concat_eq_append, List.append_assoc], hu, hm⟩
          · subst hLm; subst hLu; left
            simp [regenerateAction, List.getLast?_concat, List.dropLast_concat, hm, hu]
      · subst hLm; left
        simp [regenerateAction, List.getLast?_concat, hm]
  · intro pre u m hshape hu hm
    have hshape' : history = (pre ++ [u]) ++ [m] := by
      rw [hshape, List.append_assoc]; rfl
    subst hshape'
    simp [regenerateAction, List.getLast?_concat, List.dropLast_concat, hm, hu]

/-- C8 (witness): regenerate at the concrete history [uMsg, bMsg] resends
uMsg's content against the empty prior history. -/
theorem c8_witness :
    regenerateAction [uMsg, bMsg] =
      RegenAction.resend uMsg.content (uMsg.attachments.getD [])
        (uMsg.isHidden.getD false) [] :=
  (c8_regenerate [uMsg, bMsg]).2 [] uMsg bMsg rfl rfl rfl

/-- C9 (counterexample): with historyLimit = 0 the pruned history is the whole
remaining history (JS slice(-0) = slice(0)), not the most recent 0 messages —
here one valid user message survives pruning. -/
theorem c9_counterexample : ¬ ((getPrunedHistory [uMsg] 0).length ≤ 0) := by
  decide

/-- C9 (amended): for both provider families the outbound request's history
segment is computed exactly from getPrunedHistory; every pruned message has a
clear error flag and a non-system role; and whenever historyLimit is positive
the pruned list is a suffix of the remaining (filtered) history of length at
most historyLimit — with historyLimit = 0 the full remaining history is
serialized instead. -/
theorem c9_outbound_history (history : List Message) (config : GenerationConfig) :
    (∀ m ∈ getPrunedHistory history config.historyLimit,
      m.isError.getD false = false ∧ m.role ≠ MessageRole.SYSTEM) ∧
    (0 < config.historyLimit →
      (getPrunedHistory history config.historyLimit).length ≤ config.historyLimit ∧
      getPrunedHistory history config.historyLimit <:+ history.filter msgKeep) ∧
    (config.historyLimit = 0 →
      getPrunedHistory history config.historyLimit = history.filter msgKeep) ∧
    (∀ currentInput attachments contents,
      googleRequestContents currentInput attachments history config = .ok contents →
      contents.dropLast =
        convertHistoryToGemini (getPrunedHistory history config.historyLimit)) ∧
    (∀ provider modelId currentInput attachments systemInstruction,
      openaiApiMessages provider modelId currentInput attachments history
          systemInstruction config =
        openaiSysPart provider modelId systemInstruction ++
        openaiHistoryPart (supportsVisionModel modelId)
          (getPrunedHistory history config.historyLimit) ++
        [⟨str "user",
          processContent (supportsVisionModel modelId) currentInput (some attachments)⟩]) := by
  refine ⟨?_, ?_, ?_, ?_, ?_⟩
  · intro m hm
    have hmem : m ∈ history.filter msgKeep := by
      unfold getPrunedHistory jsSliceLast at hm
      by_cases h0 : config.historyLimit = 0
      · simpa [h0] using hm
      · exact List.mem_of_mem_drop (by simpa [h0] using hm)
    have hkeep : msgKeep m = true := (List.mem_filter.mp hmem).2
    unfold msgKeep at hkeep
    simp only [Bool.and_eq_true, Bool.not_eq_true', decide_eq_false_iff_not] at hkeep
    exact ⟨hkeep.1, hkeep.2⟩
  · intro hpos
    have h0 : config.historyLimit ≠ 0 := Nat.pos_iff_ne_zero.mp hpos
    unfold getPrunedHistory jsSliceLast
    rw [if_neg h0]
    refine ⟨?_, List.drop_suffix _ _⟩
    rw [List.length_drop]
    omega
  · intro h0
    simp [getPrunedHistory, jsSliceLast, h0]
  · intro currentInput attachments contents hok
    unfold googleRequestContents at hok
    by_cases hempty :
        (if googleCurrentParts currentInput attachments = [] then
          (if currentInput ≠ [] then [Part.text (str " ")] else [])
         else googleCurrentParts currentInput attachments) = []
    · rw [if_pos hempty] at hok; cases hok
    · rw [if_neg hempty] at hok
      cases hok
      rw [List.dropLast_concat]
  · intro provider modelId currentInput attachments systemInstruction
    rfl

/-- C9 (witness): the amended theorem at a concrete history containing a
system message, an errored message and a valid user message, with the default
historyLimit of 20. -/
theorem c9_witness :
    (getPrunedHistory
      [{ id := str "s", role := MessageRole.SYSTEM, content := str "sys", timestamp := 0 },
       { id := str "e", role := MessageRole.MODEL, content := str "bad",
         timestamp := 0, isError := some true },
       uMsg] defaultConfig.historyLimit).length ≤ defaultConfig.historyLimit ∧
    getPrunedHistory
      [{ id := str "s", role := MessageRole.SYSTEM, content := str "sys", timestamp := 0 },
       { id := str "e", role := MessageRole.MODEL, content := str "bad",
         timestamp := 0, isError := some true },
       uMsg] defaultConfig.historyLimit <:+
      ([{ id := str "s", role := MessageRole.SYSTEM, content := str "sys", timestamp := 0 },
        { id := str "e", role := MessageRole.MODEL, content := str "bad",
          timestamp := 0, isError := some true },
        uMsg].filter msgKeep) :=
  (c9_outbound_history _ defaultConfig).2.1 (by decide)

/-- Dropping the head preserves the no-consecutive-user property. -/
theorem noUserUser_tail (x : List Char) (l : List (List Char))
    (h : noUserUser (x :: l) = true) : noUserUser l = true := by
  cases l with
  | nil => rfl
  | cons b t =>
    simp only [noUserUser, Bool.and_eq_true] at h
    exact h.2

/-- Appending a model-role turn preserves the no-consecutive-user property
(only a user-user pair violates it). -/
theorem noUserUser_append_model (l : List (List Char)) (h : noUserUser l = true) :
    noUserUser (l ++ [str "model"]) = true := by
  induction l with
  | nil => rfl
  | cons a t ih =>
    cases t with
    | nil =>
      have hms : decide (str "model" = str "user") = false := by decide
      simp only [List.cons_append, List.nil_append, noUserUser, Bool.and_eq_true]
      exact ⟨by simp [hms], trivial⟩
    | cons b t2 =>
      simp only [noUserUser, Bool.and_eq_true] at h
      have h2 := ih h.2
      simp only [List.cons_append, noUserUser, Bool.and_eq_true] at h2 ⊢
      exact ⟨h.1, h2⟩

/-- The loop invariant of convertHistoryToGemini: treating the tracked
lastRole as a virtual predecessor, the emitted roles never contain a
consecutive user-user pair. -/
theorem convertAux_noUserUser (msgs : List Message) : ∀ (lr : List Char),
    noUserUser (lr :: (convertAux msgs lr).map GContent.role) = true := by
  induction msgs with
  | nil => intro lr; rfl
  | cons m rest ih =>
    intro lr
    by_cases hparts : historyPartsOf m = []
    · simpa [convertAux, hparts] using ih lr
    · by_cases hu : m.role = MessageRole.USER
      · by_cases hlr : lr = str "user"
        · subst hlr
          have ht := ih (str "user")
          have hstep : convertAux (m :: rest) (str "user") =
              fillerContent :: ⟨str "user", historyPartsOf m⟩ ::
                convertAux rest (str "user") := by
            simp [convertAux, hparts, hu]
          rw [hstep, List.map_cons, List.map_cons]
          simp only [fillerContent, noUserUser, Bool.and_eq_true]
          exact ⟨by decide, by decide, ht⟩
        · have ht := ih (str "user")
          have hstep : convertAux (m :: rest) lr =
              ⟨str "user", historyPartsOf m⟩ :: convertAux rest (str "user") := by
            simp [convertAux, hparts, hu, hlr]
          rw [hstep, List.map_cons]
          simp only [noUserUser, Bool.and_eq_true]
          refine ⟨?_, ht⟩
          simp [hlr]
      · have hmu : ¬ (str "model" = str "user") := by decide
        have ht := ih (str "model")
        have hstep : convertAux (m :: rest) lr =
            ⟨str "model", historyPartsOf m⟩ :: convertAux rest (str "model") := by
          simp [convertAux, hparts, hu, hmu]
        rw [hstep, List.map_cons]
        simp only [noUserUser, Bool.and_eq_true]
        refine ⟨?_, ht⟩
        have hdm : decide (str "model" = str "user") = false := by decide
        simp [hdm]

/-- Every turn emitted by the conversion loop carries the user or the model
role tag. -/
theorem convertAux_role_user_or_model (msgs : List Message) : ∀ lr c,
    c ∈ convertAux msgs lr → c.role = str "user" ∨ c.role = str "model" := by
  induction msgs with
  | nil => intro lr c hc; simp [convertAux] at hc
  | cons m rest ih =>
    intro lr c hc
    by_cases hparts : historyPartsOf m = []
    · exact ih lr c (by simpa [convertAux, hparts] using hc)
    · by_cases hcond : (if m.role = MessageRole.USER then str "user" else str "model") =
          str "user" ∧ lr = str "user"
      · simp only [convertAux, if_neg hparts, if_pos hcond, List.mem_cons] at hc
        rcases hc with rfl | rfl | hc
        · right; rfl
        · by_cases hu : m.role = MessageRole.USER
          · left; simp [hu]
          · right; simp [hu]
        · exact ih _ c hc
      · simp only [convertAux, if_neg hparts, if_neg hcond, List.mem_cons] at hc
        rcases hc with rfl | hc
        · by_cases hu : m.role = MessageRole.USER
          · left; simp [hu]
          · right; simp [hu]
        · exact ih _ c hc

/-- appendFinalFiller at an empty prepared history. -/
theorem appendFinalFiller_nil : appendFinalFiller [] = [] := rfl

/-- C4 (counterexample): two consecutive model messages convert to two
consecutive model-role turns — the filler repair only triggers for user-user
pairs, so the normalized sequence CAN contain two consecutive same-role turns. -/
theorem c4_counterexample :
    noAdjacentSameRole ((convertHistoryToGemini [bMsg2, bMsg3]).map GContent.role) = false := by
  decide

/-- C4 (amended): the native-family normalized turn sequence never contains
two consecutive USER-role turns (a model filler is inserted between would-be
consecutive user turns), and whenever it is nonempty it ends with a model-role
turn (a filler model turn is appended when the last prepared turn is
user-role); consecutive model-role turns can still occur. -/
theorem c4_alternation (msgs : List Message) :
    noUserUser ((convertHistoryToGemini msgs).map GContent.role) = true ∧
    (convertHistoryToGemini msgs ≠ [] →
      (convertHistoryToGemini msgs).getLast?.map GContent.role = some (str "model")) := by
  have hnud : noUserUser ((convertAux (msgs.filter msgKeep) []).map GContent.role) = true :=
    noUserUser_tail _ _ (convertAux_noUserUser (msgs.filter msgKeep) [])
  unfold convertHistoryToGemini
  cases hlast : (convertAux (msgs.filter msgKeep) []).getLast? with
  | none =>
    have hnil : convertAux (msgs.filter msgKeep) [] = [] :=
      List.getLast?_eq_none_iff.mp hlast
    rw [hnil, appendFinalFiller_nil]
    exact ⟨rfl, fun hne => absurd rfl hne⟩
  | some c =>
    by_cases hcu : c.role = str "user"
    · have happ : appendFinalFiller (convertAux (msgs.filter msgKeep) []) =
          convertAux (msgs.filter msgKeep) [] ++ [fillerContent] := by
        unfold appendFinalFiller
        rw [hlast]
        exact if_pos hcu
      rw [happ]
      constructor
      · rw [List.map_append]
        exact noUserUser_append_model _ hnud
      · intro _
        rw [List.getLast?_concat]
        rfl
    · have happ : appendFinalFiller (convertAux (msgs.filter msgKeep) []) =
          convertAux (msgs.filter msgKeep) [] := by
        unfold appendFinalFiller
        rw [hlast]
        exact if_neg hcu
      rw [happ]
      refine ⟨hnud, ?_⟩
      intro hne
      rw [hlast]
      have hmem : c ∈ convertAux (msgs.filter msgKeep) [] := by
        have hopt : c ∈ (convertAux (msgs.filter msgKeep) []).getLast? := by
          rw [Option.mem_def]; exact hlast
        rcases List.mem_getLast?_eq_getLast hopt with ⟨h, hc⟩
        rw [hc]; exact List.getLast_mem h
      rcases convertAux_role_user_or_model (msgs.filter msgKeep) [] c hmem with h | h
      · exact absurd h hcu
      · simp [h]

/-- C4 (witness): the amended theorem at the one-user-turn history, whose
conversion ends with the appended filler model turn. -/
theorem c4_witness :
    noUserUser ((convertHistoryToGemini [uMsg]).map GContent.role) = true ∧
    (convertHistoryToGemini [uMsg]).getLast?.map GContent.role = some (str "model") :=
  ⟨(c4_alternation [uMsg]).1, (c4_alternation [uMsg]).2 (by decide)⟩

end CanvasAI
